import Mathlib

/-
Verification of the img2pindou frontend components against their specification.

The definitions below are a shallow embedding of
`frontend/src/components/PixelViewer.tsx` (the `App` component with
`rgbToHex` and `handlePixelate`, and the `PixelViewer` component) and of
`frontend/src/components/ImageUploader.tsx`.  JavaScript strings are modelled
as Lean `String` (a wrapper around `List Char`), JavaScript `Set<string>` as
`Finset String`, JavaScript `Map<string, string>` as an association list with
JS `Map.set` overwrite semantics, and JSON numbers appearing in the modelled
paths (RGB channels, grid sizes, HTTP status) as `Nat`.
-/

namespace Img2Pindou

/-- One hexadecimal digit character, as produced by JavaScript
`Number.prototype.toString(16)`: digits `0`-`9` then lowercase `a`-`f`. -/
def hexDigit (n : Nat) : Char :=
  if n < 10 then Char.ofNat (48 + n) else Char.ofNat (87 + n)

/-- Fuel-indexed base-16 digit expansion (most significant digit first). -/
def hexRepAux : Nat → Nat → List Char
  | 0, _ => []
  | fuel + 1, n =>
    if n < 16 then [hexDigit n]
    else hexRepAux fuel (n / 16) ++ [hexDigit (n % 16)]

/-- The character sequence of `x.toString(16)` for a natural number `x`:
its standard base-16 representation, lowercase, no leading zeros
(and `"0"` for zero).  `n + 1` units of fuel always suffice. -/
def hexRep (n : Nat) : List Char :=
  hexRepAux (n + 1) n

/-- The body of the mapper inside `rgbToHex`:
`const hex = x.toString(16); return hex.length === 1 ? '0' + hex : hex;`. -/
def padHexByte (n : Nat) : List Char :=
  let h := hexRep n
  if h.length = 1 then '0' :: h else h

/-- Embedding of `rgbToHex` (PixelViewer.tsx, `App` file, lines 266-271):
`"#" + [r, g, b].map(x => ...).join('')`.  The `join('')` of the three mapped
hex strings is their concatenation. -/
def rgbToHex (r g b : Nat) : String :=
  String.mk ('#' :: (padHexByte r ++ padHexByte g ++ padHexByte b))

/-- One entry of the `used_palette` array of a `/pixelate` response:
a catalog color id together with its `rgb` triple. -/
structure PaletteEntry where
  id : String
  rgb : Nat × Nat × Nat
  deriving DecidableEq, Repr

/-- The hex string `rgbToHex(p.rgb[0], p.rgb[1], p.rgb[2])` computed for a
palette entry inside the `used_palette.forEach` loop of `handlePixelate`. -/
def hexOf (p : PaletteEntry) : String :=
  rgbToHex p.rgb.1 p.rgb.2.1 p.rgb.2.2

/-- Key membership in the association-list model of a JS `Map<string,string>`. -/
def mapHasKey : List (String × String) → String → Bool
  | [], _ => false
  | e :: rest, k => if e.1 = k then true else mapHasKey rest k

/-- Lookup in the association-list model of a JS `Map<string,string>`
(`Map.prototype.get`, `none` playing the role of `undefined`). -/
def mapGet : List (String × String) → String → Option String
  | [], _ => none
  | e :: rest, k => if e.1 = k then some e.2 else mapGet rest k

/-- `Map.prototype.set`: overwrite the binding if the key is present,
otherwise append a new binding. -/
def mapSet (m : List (String × String)) (k v : String) : List (String × String) :=
  if mapHasKey m k then m.map (fun e => if e.1 = k then (k, v) else e)
  else m ++ [(k, v)]

/-- The `data.used_palette.forEach` loop of `handlePixelate`
(lines 422-428): for each entry, `paletteMap.set(p.id, hex)` and
`paletteHexList.push(hex)`. -/
def buildPaletteGo : List PaletteEntry → List (String × String) → List String →
    List (String × String) × List String
  | [], m, acc => (m, acc)
  | p :: rest, m, acc => buildPaletteGo rest (mapSet m p.id (hexOf p)) (acc ++ [hexOf p])

/-- The `paletteMap` and `paletteHexList` built by `handlePixelate` from
`data.used_palette`, starting from an empty map and an empty list. -/
def buildPalette (ps : List PaletteEntry) : List (String × String) × List String :=
  buildPaletteGo ps [] []

/-- The fallback hex value used by `handlePixelate` for grid ids that are
absent from `paletteMap`. -/
def fallbackHex : String := "#000000"

/-- JavaScript `a || b` specialised to an optional string `a`
(`undefined` and the empty string are the falsy cases). -/
def jsOrString (o : Option String) (dflt : String) : String :=
  match o with
  | none => dflt
  | some s => if s = "" then dflt else s

/-- The per-cell transformation `paletteMap.get(id) || '#000000'`
(line 431 of `handlePixelate`). -/
def cellHex (m : List (String × String)) (id : String) : String :=
  jsOrString (mapGet m id) fallbackHex

/-- The `gridHex` computation of `handlePixelate` (lines 430-432):
`data.grid_data.map(row => row.map(id => paletteMap.get(id) || '#000000'))`. -/
def gridHex (m : List (String × String)) (g : List (List String)) : List (List String) :=
  g.map (fun row => row.map (fun id => cellHex m id))

/-- The fields of a `/pixelate` response body read by `handlePixelate`,
plus `extra` standing for any additional JSON fields the handler ignores. -/
structure PixelateResponse where
  used_palette : List PaletteEntry
  grid_data : List (List String)
  width : Nat
  height : Nat
  preview : String
  extra : List (String × String)
  deriving DecidableEq, Repr

/-- The `PixelResult` interface of the `App` component. -/
structure PixelResult where
  gridData : List (List String)
  usedPalette : List String
  width : Nat
  height : Nat
  preview : String
  deriving DecidableEq, Repr

/-- The pure transformation performed by `handlePixelate` on a parsed
`/pixelate` response (lines 417-440): build `paletteMap`/`paletteHexList`,
convert `grid_data` to hex, and assemble the `PixelResult`. -/
def handlePixelateResult (data : PixelateResponse) : PixelResult :=
  let bp := buildPalette data.used_palette
  { gridData := gridHex bp.1 data.grid_data
    usedPalette := bp.2
    width := data.width
    height := data.height
    preview := data.preview }

/-- The initial `visibleColors` state of `PixelViewer`
(`useState(new Set(usedPalette))`, line 23, refreshed at line 29). -/
def initVisibleColors (usedPalette : List String) : Finset String :=
  usedPalette.toFinset

/-- Embedding of `toggleColorVisibility` (PixelViewer.tsx lines 32-40):
copy the set, delete the color if present, otherwise add it. -/
def toggleColorVisibility (color : String) (visible : Finset String) : Finset String :=
  if color ∈ visible then visible.erase color else insert color visible

/-- Embedding of `toggleAllColors` (PixelViewer.tsx lines 42-48):
if `visibleColors.size === usedPalette.length` clear the set,
otherwise set it to `new Set(usedPalette)`. -/
def toggleAllColors (visible : Finset String) (usedPalette : List String) : Finset String :=
  if visible.card = usedPalette.length then ∅ else usedPalette.toFinset

/-- The guard of the paint loop (PixelViewer.tsx line 85):
a cell is painted exactly when `visibleColors.has(color)`. -/
def paintsCell (visible : Finset String) (color : String) : Bool :=
  decide (color ∈ visible)

/-- Canvas width set by the render effect (PixelViewer.tsx line 57):
`width * scale + (addPadding ? scale * 2 : 0)`. -/
def canvasWidth (width scale : Nat) (addPadding : Bool) : Nat :=
  width * scale + (if addPadding then scale * 2 else 0)

/-- Canvas height set by the render effect (PixelViewer.tsx line 58). -/
def canvasHeight (height scale : Nat) (addPadding : Bool) : Nat :=
  height * scale + (if addPadding then scale * 2 else 0)

/-- The initial `addPadding` state of `PixelViewer` (`useState(true)`, line 26). -/
def viewerInitAddPadding : Bool := true

/-- The slider-related state of the `App` component. -/
structure AppParams where
  gridSize : Nat
  tempGridSize : Nat
  maxColors : Nat
  tempMaxColors : Nat
  deriving DecidableEq, Repr

/-- Initial `App` state: `useState(64)` for both grid-size states and
`useState(15)` for both max-colors states. -/
def initParams : AppParams := { gridSize := 64, tempGridSize := 64, maxColors := 15, tempMaxColors := 15 }

/-- A value producible by the density range input
(`min="16" max="128" step="8"`). -/
def densityValid (v : Nat) : Bool :=
  decide (16 ≤ v ∧ v ≤ 128 ∧ (v - 16) % 8 = 0)

/-- A value producible by the max-colors range input
(`min="5" max="30" step="1"`). -/
def colorsValid (v : Nat) : Bool :=
  decide (5 ≤ v ∧ v ≤ 30)

/-- User interactions that touch the grid-size / max-colors state.
Pixelation events carry whether the request succeeded; on failure
`handlePixelate` leaves these states untouched. -/
inductive AppEvent where
  | changeDensity : Nat → AppEvent
  | releaseDensity : Bool → AppEvent
  | changeColors : Nat → AppEvent
  | releaseColors : Bool → AppEvent
  | pixelateDefault : Bool → AppEvent
  deriving DecidableEq, Repr

/-- An event is valid when the value it carries can actually be produced by
the corresponding HTML range input. -/
def eventValid : AppEvent → Bool
  | .changeDensity v => densityValid v
  | .changeColors v => colorsValid v
  | _ => true

/-- The parameter updates performed at the end of a successful
`handlePixelate(g, c)` (lines 443-446); on failure none of them run. -/
def applyPixelate (s : AppParams) (g c : Nat) (ok : Bool) : AppParams :=
  if ok then { gridSize := g, tempGridSize := g, maxColors := c, tempMaxColors := c } else s

/-- One step of the `App` slider state machine:
`onChange` handlers update the temp values, `onMouseUp`/`onTouchEnd` call
`handlePixelate(Number(tempGridSize), maxColors)` resp.
`handlePixelate(gridSize, Number(tempMaxColors))`, and the step-2 button
calls `handlePixelate(64, 15)`. -/
def stepApp (s : AppParams) : AppEvent → AppParams
  | .changeDensity v => { s with tempGridSize := v }
  | .releaseDensity ok => applyPixelate s s.tempGridSize s.maxColors ok
  | .changeColors v => { s with tempMaxColors := v }
  | .releaseColors ok => applyPixelate s s.gridSize s.tempMaxColors ok
  | .pixelateDefault ok => applyPixelate s 64 15 ok

/-- The `(grid_size, max_colors)` pair sent with the `/pixelate` request an
event issues, if any. -/
def requestOf (s : AppParams) : AppEvent → Option (Nat × Nat)
  | .releaseDensity _ => some (s.tempGridSize, s.maxColors)
  | .releaseColors _ => some (s.gridSize, s.tempMaxColors)
  | .pixelateDefault _ => some (64, 15)
  | _ => none

/-- Invariant of the slider state: every stored parameter is a value its
range input can produce. -/
def paramsInv (s : AppParams) : Bool :=
  densityValid s.gridSize && densityValid s.tempGridSize &&
    colorsValid s.maxColors && colorsValid s.tempMaxColors

/-- How a `/pixelate` attempt inside `handlePixelate` can terminate: the
thrown value of a rejected promise, classified the way the `catch` block
classifies it. -/
inductive RejectKind where
  | networkTypeError : RejectKind
  | jsError : String → RejectKind
  | nonError : RejectKind
  deriving DecidableEq, Repr

/-- Outcome of the fetch/parse phase of `handlePixelate`: an HTTP error
response (`!response.ok`), a rejection (either fetch threw), or a parsed
successful response body. -/
inductive PixelateOutcome where
  | httpError : Nat → String → PixelateOutcome
  | reject : RejectKind → PixelateOutcome
  | ok : PixelateResponse → PixelateOutcome
  deriving DecidableEq, Repr

/-- The `apiUrl` state (`useState('/api')`, not user configurable). -/
def apiUrl : String := "/api"

/-- The message built for a `TypeError` with message `Failed to fetch`
(lines 452-453). -/
def networkFailMessage : String :=
  "无法连接到服务器。请检查：\n1. 后端服务是否已启动\n2. Nginx 反向代理配置是否生效 (/api 路径)\n\n当前请求地址: " ++ apiUrl ++ "/generate"

/-- The message thrown for a non-ok `/pixelate` response (line 414):
a template string interpolating the status and status text. -/
def httpErrorMessage (status : Nat) (statusText : String) : String :=
  "像素化失败: " ++ toString status ++ " " ++ statusText

/-- The error message the `catch` block selects (lines 450-457). -/
def rejectMessage : RejectKind → String
  | .networkTypeError => networkFailMessage
  | .jsError msg => msg
  | .nonError => "图片像素化失败"

/-- The `App` state touched by `handlePixelate`. -/
structure AppResultState where
  pixelResult : Option PixelResult
  step : Nat
  gridSize : Nat
  tempGridSize : Nat
  maxColors : Nat
  tempMaxColors : Nat
  error : Option String
  isLoading : Bool
  deriving DecidableEq, Repr

/-- The state transition of one `handlePixelate(g, c)` invocation past the
source-image guard (lines 395-460): `setError(null)` first; on success the
result, parameters and step are replaced and the error stays cleared; on a
non-ok response the thrown `Error` message is stored; on a rejection the
`catch` classification picks the message.  `setIsLoading(false)` always runs. -/
def handlePixelateStep (s : AppResultState) (g c : Nat) (o : PixelateOutcome) : AppResultState :=
  match o with
  | .ok data =>
    { s with pixelResult := some (handlePixelateResult data)
             gridSize := g, tempGridSize := g
             maxColors := c, tempMaxColors := c
             step := 3, error := none, isLoading := false }
  | .httpError status statusText =>
    { s with error := some (httpErrorMessage status statusText), isLoading := false }
  | .reject k =>
    { s with error := some (rejectMessage k), isLoading := false }

/-- Character-list core of JavaScript `String.prototype.startsWith`. -/
def charsStartWith : List Char → List Char → Bool
  | _, [] => true
  | [], _ :: _ => false
  | c :: cs, p :: ps => if c = p then charsStartWith cs ps else false

/-- JavaScript `s.startsWith(pre)`. -/
def jsStartsWith (s pre : String) : Bool :=
  charsStartWith s.data pre.data

/-- A JavaScript `File`, reduced to the properties the uploader reads. -/
structure JsFile where
  name : String
  type : String
  deriving DecidableEq, Repr

/-- Embedding of `handleDrop` (ImageUploader.tsx lines 25-35): the value is
the file passed to `onImageSelect`, or `none` when the callback is not
invoked.  Only `files[0]` is ever examined, and it is accepted exactly when
its MIME type starts with `image/`. -/
def handleDrop (files : List JsFile) : Option JsFile :=
  match files with
  | [] => none
  | f :: _ => if jsStartsWith f.type "image/" then some f else none

/-- Embedding of `handleFileSelect` (ImageUploader.tsx lines 37-43): the
first component is the file passed to `onImageSelect` (if any), the second
the input's `value` after the handler (always reset to the empty string). -/
def handleFileSelect (files : List JsFile) : Option JsFile × String :=
  (match files with
   | [] => none
   | f :: _ => some f, "")


/-
Helper lemmas about the embedded definitions.
-/

theorem hexDigit_zero : hexDigit 0 = '0' := by decide

theorem hexRep_of_lt {n : Nat} (h : n < 16) : hexRep n = [hexDigit n] := by
  simp [hexRep, hexRepAux, h]

theorem hexRep_byte {n : Nat} (h1 : 16 ≤ n) (h2 : n ≤ 255) :
    hexRep n = [hexDigit (n / 16), hexDigit (n % 16)] := by
  obtain ⟨m, rfl⟩ : ∃ m, n = m + 1 := ⟨n - 1, by omega⟩
  have hn : ¬ (m + 1 < 16) := by omega
  have hd : (m + 1) / 16 < 16 := by omega
  simp [hexRep, hexRepAux, hn, hd]

theorem padHexByte_byte {n : Nat} (h : n ≤ 255) :
    padHexByte n = [hexDigit (n / 16), hexDigit (n % 16)] := by
  by_cases hlt : n < 16
  · have h0 : n / 16 = 0 := Nat.div_eq_of_lt hlt
    have hm : n % 16 = n := Nat.mod_eq_of_lt hlt
    simp [padHexByte, hexRep_of_lt hlt, h0, hm, hexDigit_zero]
  · simp [padHexByte, hexRep_byte (by omega : 16 ≤ n) h]

theorem rgbToHex_bytes {r g b : Nat} (hr : r ≤ 255) (hg : g ≤ 255) (hb : b ≤ 255) :
    rgbToHex r g b = String.mk ['#', hexDigit (r / 16), hexDigit (r % 16),
      hexDigit (g / 16), hexDigit (g % 16), hexDigit (b / 16), hexDigit (b % 16)] := by
  simp [rgbToHex, padHexByte_byte hr, padHexByte_byte hg, padHexByte_byte hb]

theorem rgbToHex_ne_empty (r g b : Nat) : rgbToHex r g b ≠ "" := by
  intro h
  have := congrArg String.data h
  simp [rgbToHex] at this

theorem hexDigit_fin_inj : ∀ a b : Fin 16, hexDigit a.val = hexDigit b.val → a = b := by decide

theorem hexDigit_inj {a b : Nat} (ha : a < 16) (hb : b < 16)
    (h : hexDigit a = hexDigit b) : a = b := by
  have := hexDigit_fin_inj ⟨a, ha⟩ ⟨b, hb⟩ h
  exact congrArg Fin.val this

theorem rgbToHex_inj {r g b r' g' b' : Nat}
    (hr : r ≤ 255) (hg : g ≤ 255) (hb : b ≤ 255)
    (hr' : r' ≤ 255) (hg' : g' ≤ 255) (hb' : b' ≤ 255)
    (h : rgbToHex r g b = rgbToHex r' g' b') : r = r' ∧ g = g' ∧ b = b' := by
  rw [rgbToHex_bytes hr hg hb, rgbToHex_bytes hr' hg' hb'] at h
  have hd := congrArg String.data h
  simp only [List.cons.injEq, and_true] at hd
  obtain ⟨-, h1, h2, h3, h4, h5, h6⟩ := hd
  have e1 := hexDigit_inj (by omega) (by omega) h1
  have e2 := hexDigit_inj (by omega : r % 16 < 16) (by omega : r' % 16 < 16) h2
  have e3 := hexDigit_inj (by omega) (by omega) h3
  have e4 := hexDigit_inj (by omega : g % 16 < 16) (by omega : g' % 16 < 16) h4
  have e5 := hexDigit_inj (by omega) (by omega) h5
  have e6 := hexDigit_inj (by omega : b % 16 < 16) (by omega : b' % 16 < 16) h6
  omega


theorem mapHasKey_iff_aux : ∀ (m : List (String × String)) (k : String),
    mapHasKey m k = true ↔ ∃ e ∈ m, e.1 = k := by
  intro m k
  induction m with
  | nil => simp [mapHasKey]
  | cons e rest ih =>
    by_cases h : e.1 = k
    · simp [mapHasKey, h]
    · simp [mapHasKey, h, ih]

theorem mapSet_fresh {m : List (String × String)} {k : String} (v : String)
    (h : mapHasKey m k = false) : mapSet m k v = m ++ [(k, v)] := by
  simp [mapSet, h]

theorem mapHasKey_append_single {m : List (String × String)} {k k0 : String} (v : String)
    (h : mapHasKey m k = false) (hne : k0 ≠ k) :
    mapHasKey (m ++ [(k0, v)]) k = false := by
  induction m with
  | nil => simp [mapHasKey, hne]
  | cons e rest ih =>
    simp only [mapHasKey] at h ⊢
    by_cases he : e.1 = k
    · simp [he] at h
    · simp only [he, if_false] at h ⊢
      exact ih h

theorem buildPaletteGo_snd : ∀ (ps : List PaletteEntry) (m : List (String × String))
    (acc : List String), (buildPaletteGo ps m acc).2 = acc ++ ps.map hexOf := by
  intro ps
  induction ps with
  | nil => simp [buildPaletteGo]
  | cons p rest ih =>
    intro m acc
    simp [buildPaletteGo, ih]

theorem buildPaletteGo_fst : ∀ (ps : List PaletteEntry) (m : List (String × String))
    (acc : List String), (ps.map PaletteEntry.id).Nodup →
    (∀ p ∈ ps, mapHasKey m p.id = false) →
    (buildPaletteGo ps m acc).1 = m ++ ps.map (fun p => (p.id, hexOf p)) := by
  intro ps
  induction ps with
  | nil => simp [buildPaletteGo]
  | cons q rest ih =>
    intro m acc hnd hfresh
    simp only [List.map_cons, List.nodup_cons, List.mem_map] at hnd
    obtain ⟨hq, hrest⟩ := hnd
    have hq_fresh : mapHasKey m q.id = false := hfresh q (List.mem_cons_self q rest)
    rw [buildPaletteGo, mapSet_fresh (hexOf q) hq_fresh]
    rw [ih (m ++ [(q.id, hexOf q)]) (acc ++ [hexOf q]) hrest ?fresh]
    · simp
    case fresh =>
      intro p hp
      refine mapHasKey_append_single (hexOf q) (hfresh p (List.mem_cons_of_mem q hp)) ?_
      intro he
      exact hq ⟨p, hp, he.symm⟩

theorem mapGet_assoc_nodup : ∀ (ps : List PaletteEntry) (p : PaletteEntry),
    (ps.map PaletteEntry.id).Nodup → p ∈ ps →
    mapGet (ps.map (fun q => (q.id, hexOf q))) p.id = some (hexOf p) := by
  intro ps
  induction ps with
  | nil => intro p _ hp; simp at hp
  | cons q rest ih =>
    intro p hnd hp
    simp only [List.map_cons, List.nodup_cons, List.mem_map] at hnd
    obtain ⟨hq, hrest⟩ := hnd
    rcases List.mem_cons.1 hp with rfl | hp'
    · simp [mapGet]
    · have hne : q.id ≠ p.id := fun he => hq ⟨p, hp', he.symm⟩
      simp only [List.map_cons, mapGet, hne, if_false]
      exact ih p hrest hp'

theorem buildPalette_fst_of_nodup {ps : List PaletteEntry}
    (hnd : (ps.map PaletteEntry.id).Nodup) :
    (buildPalette ps).1 = ps.map (fun p => (p.id, hexOf p)) := by
  have := buildPaletteGo_fst ps [] [] hnd (by intro p _; rfl)
  simpa [buildPalette] using this

theorem buildPalette_snd (ps : List PaletteEntry) :
    (buildPalette ps).2 = ps.map hexOf := by
  simpa [buildPalette] using buildPaletteGo_snd ps [] []

theorem buildPalette_get_of_mem {ps : List PaletteEntry} {p : PaletteEntry}
    (hnd : (ps.map PaletteEntry.id).Nodup) (hp : p ∈ ps) :
    mapGet (buildPalette ps).1 p.id = some (hexOf p) := by
  rw [buildPalette_fst_of_nodup hnd]
  exact mapGet_assoc_nodup ps p hnd hp

theorem mapGet_eq_none {m : List (String × String)} {k : String}
    (h : mapHasKey m k = false) : mapGet m k = none := by
  induction m with
  | nil => rfl
  | cons e rest ih =>
    simp only [mapHasKey] at h
    by_cases he : e.1 = k
    · simp [he] at h
    · simp only [he, if_false] at h
      simp only [mapGet, he, if_false]
      exact ih h

theorem mapSet_hasKey {m : List (String × String)} {k k0 v : String}
    (h : mapHasKey (mapSet m k0 v) k = true) : mapHasKey m k = true ∨ k = k0 := by
  rw [mapSet] at h
  by_cases hm : mapHasKey m k0
  · rw [if_pos hm] at h
    rw [mapHasKey_iff_aux] at h ⊢
    obtain ⟨e, he, hek⟩ := h
    rw [List.mem_map] at he
    obtain ⟨e0, he0, heq⟩ := he
    by_cases h0 : e0.1 = k0
    · right
      rw [if_pos h0] at heq
      rw [← heq] at hek
      exact hek.symm ▸ rfl
    · left
      rw [if_neg h0] at heq
      exact ⟨e0, he0, heq ▸ hek⟩
  · rw [if_neg hm] at h
    rw [mapHasKey_iff_aux] at h ⊢
    obtain ⟨e, he, hek⟩ := h
    rcases List.mem_append.1 he with he' | he'
    · exact Or.inl ⟨e, he', hek⟩
    · right
      simp only [List.mem_singleton] at he'
      rw [he'] at hek
      exact hek.symm

theorem buildPaletteGo_hasKey : ∀ (ps : List PaletteEntry) (m : List (String × String))
    (acc : List String) (k : String),
    mapHasKey (buildPaletteGo ps m acc).1 k = true →
    mapHasKey m k = true ∨ k ∈ ps.map PaletteEntry.id := by
  intro ps
  induction ps with
  | nil => intro m acc k h; exact Or.inl h
  | cons q rest ih =>
    intro m acc k h
    rcases ih (mapSet m q.id (hexOf q)) (acc ++ [hexOf q]) k h with h' | h'
    · rcases mapSet_hasKey h' with h'' | rfl
      · exact Or.inl h''
      · simp
    · simp [h']

theorem buildPalette_get_none {ps : List PaletteEntry} {k : String}
    (h : k ∉ ps.map PaletteEntry.id) : mapGet (buildPalette ps).1 k = none := by
  apply mapGet_eq_none
  by_contra hk
  rw [Bool.not_eq_false] at hk
  rcases buildPaletteGo_hasKey ps [] [] k hk with h' | h'
  · simp [mapHasKey] at h'
  · exact h h'


/-
Claim theorems.
-/

/-- C1: for every `/pixelate` response processed by `handlePixelate`, every
non-background cell of the displayed grid (a cell whose id is that of a
`used_palette` entry) is looked up in `paletteMap` and resolves to that
entry's catalog RGB as hex; the lookup succeeds, so the fallback branch of
`paletteMap.get(id) || '#000000'` is never taken for such a cell (and when the
entry's own hex differs from `'#000000'`, neither is that value received). -/
theorem c1_nonbackground_cells_resolve_to_catalog_hex
    (data : PixelateResponse) (p : PaletteEntry)
    (hnd : (data.used_palette.map PaletteEntry.id).Nodup)
    (hp : p ∈ data.used_palette) :
    mapGet (buildPalette data.used_palette).1 p.id = some (hexOf p) ∧
    cellHex (buildPalette data.used_palette).1 p.id = hexOf p ∧
    (hexOf p ≠ fallbackHex → cellHex (buildPalette data.used_palette).1 p.id ≠ fallbackHex) ∧
    (handlePixelateResult data).gridData =
      data.grid_data.map (fun row => row.map (fun id => cellHex (buildPalette data.used_palette).1 id)) := by
  have hget := buildPalette_get_of_mem hnd hp
  have hne : hexOf p ≠ "" := rgbToHex_ne_empty p.rgb.1 p.rgb.2.1 p.rgb.2.2
  have hcell : cellHex (buildPalette data.used_palette).1 p.id = hexOf p := by
    rw [cellHex, hget]
    simp [jsOrString, hne]
  exact ⟨hget, hcell, fun hneq => hcell ▸ hneq, rfl⟩

def c1data : PixelateResponse :=
  { used_palette := [{ id := "H01", rgb := (255, 0, 0) }]
    grid_data := [["H01", "H99"]], width := 2, height := 1, preview := "p", extra := [] }

/-- Witness for C1 at a concrete response. -/
theorem c1_witness :
    ((c1data.used_palette.map PaletteEntry.id).Nodup ∧
      ({ id := "H01", rgb := (255, 0, 0) } : PaletteEntry) ∈ c1data.used_palette) ∧
    cellHex (buildPalette c1data.used_palette).1 "H01" =
      hexOf { id := "H01", rgb := (255, 0, 0) } :=
  ⟨⟨by decide, by decide⟩,
    (c1_nonbackground_cells_resolve_to_catalog_hex c1data
      { id := "H01", rgb := (255, 0, 0) } (by decide) (by decide)).2.1⟩

/-- C2: a grid cell whose id does not appear in `used_palette` is mapped to
the marker `'#000000'`; under the precondition that `'#000000'` is not the hex
of any `used_palette` entry, that marker is not a member of the visible-color
set initialized from `usedPalette`, so the paint loop leaves the cell
unpainted; the grid rows remain represented positionally (same row count). -/
theorem c2_background_cells_marked_and_skipped
    (data : PixelateResponse) (id : String)
    (hid : id ∉ data.used_palette.map PaletteEntry.id)
    (hno : ∀ p ∈ data.used_palette, hexOf p ≠ fallbackHex) :
    cellHex (buildPalette data.used_palette).1 id = fallbackHex ∧
    fallbackHex ∉ initVisibleColors (handlePixelateResult data).usedPalette ∧
    paintsCell (initVisibleColors (handlePixelateResult data).usedPalette) fallbackHex = false ∧
    (handlePixelateResult data).gridData.length = data.grid_data.length := by
  have hget := buildPalette_get_none hid
  have h1 : cellHex (buildPalette data.used_palette).1 id = fallbackHex := by
    rw [cellHex, hget]
    rfl
  have hval : (handlePixelateResult data).usedPalette = data.used_palette.map hexOf :=
    buildPalette_snd data.used_palette
  have h2 : fallbackHex ∉ initVisibleColors (handlePixelateResult data).usedPalette := by
    rw [hval, initVisibleColors, List.mem_toFinset, List.mem_map]
    rintro ⟨p, hp, he⟩
    exact hno p hp he
  refine ⟨h1, h2, by simp [paintsCell, h2], ?_⟩
  simp [handlePixelateResult, gridHex]

def c2data : PixelateResponse :=
  { used_palette := [{ id := "H01", rgb := (255, 0, 0) }]
    grid_data := [["H01", "H99"]], width := 2, height := 1, preview := "p", extra := [] }

/-- Witness for C2 at a concrete response with a background id. -/
theorem c2_witness :
    ("H99" ∉ c2data.used_palette.map PaletteEntry.id ∧
      ∀ p ∈ c2data.used_palette, hexOf p ≠ fallbackHex) ∧
    cellHex (buildPalette c2data.used_palette).1 "H99" = fallbackHex :=
  ⟨⟨by decide, by decide⟩,
    (c2_background_cells_marked_and_skipped c2data "H99" (by decide) (by decide)).1⟩

def c3dup : List PaletteEntry :=
  [{ id := "P1", rgb := (10, 20, 30) }, { id := "P2", rgb := (10, 20, 30) }]

/-- Response wrapping the duplicated-RGB palette above. -/
def c3dupResp : PixelateResponse :=
  { used_palette := c3dup, grid_data := [], width := 0, height := 0, preview := "", extra := [] }

/-- C3 counterexample: a `used_palette` with two distinct catalog ids sharing
one RGB triple produces a `usedPalette` hex list with a duplicate, refuting
the claim that distinct ids alone make the hex list pairwise distinct. -/
theorem c3_counterexample :
    (c3dup.map PaletteEntry.id).Nodup ∧
    ¬ (handlePixelateResult c3dupResp).usedPalette.Nodup := by decide

/-- C3 (amended): if the `used_palette` entries carry pairwise-distinct RGB
triples of 8-bit channels, then converting them to hex via `rgbToHex` yields
a `usedPalette` list with pairwise-distinct elements. -/
theorem c3_distinct_rgb_gives_distinct_hex
    (data : PixelateResponse)
    (hrgb : (data.used_palette.map PaletteEntry.rgb).Nodup)
    (hbytes : ∀ p ∈ data.used_palette,
      p.rgb.1 ≤ 255 ∧ p.rgb.2.1 ≤ 255 ∧ p.rgb.2.2 ≤ 255) :
    (handlePixelateResult data).usedPalette.Nodup := by
  have hval : (handlePixelateResult data).usedPalette = data.used_palette.map hexOf :=
    buildPalette_snd data.used_palette
  rw [hval]
  have hinj := List.inj_on_of_nodup_map hrgb
  refine List.Nodup.map_on ?_ hrgb.of_map
  intro x hx y hy hxy
  obtain ⟨hx1, hx2, hx3⟩ := hbytes x hx
  obtain ⟨hy1, hy2, hy3⟩ := hbytes y hy
  obtain ⟨e1, e2, e3⟩ := rgbToHex_inj hx1 hx2 hx3 hy1 hy2 hy3 hxy
  exact hinj hx hy (Prod.ext e1 (Prod.ext e2 e3))

def c3resp : PixelateResponse :=
  { used_palette := [{ id := "P1", rgb := (0, 0, 0) }, { id := "P2", rgb := (255, 255, 255) }]
    grid_data := [], width := 0, height := 0, preview := "", extra := [] }

/-- Witness for the amended C3 at a concrete response. -/
theorem c3_witness :
    ((c3resp.used_palette.map PaletteEntry.rgb).Nodup ∧
      ∀ p ∈ c3resp.used_palette,
        p.rgb.1 ≤ 255 ∧ p.rgb.2.1 ≤ 255 ∧ p.rgb.2.2 ≤ 255) ∧
    (handlePixelateResult c3resp).usedPalette.Nodup :=
  ⟨⟨by decide, by decide⟩,
    c3_distinct_rgb_gives_distinct_hex c3resp (by decide) (by decide)⟩

theorem paramsInv_iff (s : AppParams) :
    paramsInv s = true ↔
      (16 ≤ s.gridSize ∧ s.gridSize ≤ 128 ∧ (s.gridSize - 16) % 8 = 0) ∧
      (16 ≤ s.tempGridSize ∧ s.tempGridSize ≤ 128 ∧ (s.tempGridSize - 16) % 8 = 0) ∧
      (5 ≤ s.maxColors ∧ s.maxColors ≤ 30) ∧
      (5 ≤ s.tempMaxColors ∧ s.tempMaxColors ≤ 30) := by
  simp [paramsInv, densityValid, colorsValid, Bool.and_eq_true, decide_eq_true_eq, and_assoc]

theorem stepApp_preserves_inv (s : AppParams) (e : AppEvent)
    (hs : paramsInv s = true) (he : eventValid e = true) :
    paramsInv (stepApp s e) = true := by
  rw [paramsInv_iff] at hs ⊢
  cases e with
  | changeDensity v =>
    simp only [eventValid, densityValid, decide_eq_true_eq] at he
    exact ⟨hs.1, he, hs.2.2⟩
  | changeColors v =>
    simp only [eventValid, colorsValid, decide_eq_true_eq] at he
    exact ⟨hs.1, hs.2.1, hs.2.2.1, he⟩
  | releaseDensity ok =>
    cases ok with
    | false => exact hs
    | true => exact ⟨hs.2.1, hs.2.1, hs.2.2.1, hs.2.2.1⟩
  | releaseColors ok =>
    cases ok with
    | false => exact hs
    | true => exact ⟨hs.1, hs.1, hs.2.2.2, hs.2.2.2⟩
  | pixelateDefault ok =>
    cases ok with
    | false => exact hs
    | true =>
      simp only [stepApp, applyPixelate, if_true]
      decide

theorem foldl_stepApp_inv : ∀ (evs : List AppEvent) (s : AppParams),
    paramsInv s = true → (∀ e ∈ evs, eventValid e = true) →
    paramsInv (evs.foldl stepApp s) = true := by
  intro evs
  induction evs with
  | nil => intro s hs _; exact hs
  | cons e rest ih =>
    intro s hs hall
    simp only [List.foldl_cons]
    exact ih (stepApp s e)
      (stepApp_preserves_inv s e hs (hall e (List.mem_cons_self e rest)))
      (fun e2 he2 => hall e2 (List.mem_cons_of_mem e he2))

/-- C4: from the initial `App` state (64, 15), under slider events that respect
the range inputs' `min`/`max`/`step` attributes, every reachable slider state
satisfies the bounds invariant, every `/pixelate` request issued carries a
grid size in the set produced by the density slider (16 to 128, step 8) and a
max-colors value in 5 to 30, and the default invocation uses (64, 15). -/
theorem c4_request_parameter_bounds :
    paramsInv initParams = true ∧
    (∀ (evs : List AppEvent), (∀ e ∈ evs, eventValid e = true) →
      paramsInv (evs.foldl stepApp initParams) = true) ∧
    (∀ (s : AppParams) (e : AppEvent) (g c : Nat),
      paramsInv s = true → eventValid e = true → requestOf s e = some (g, c) →
      (16 ≤ g ∧ g ≤ 128 ∧ (g - 16) % 8 = 0) ∧ (5 ≤ c ∧ c ≤ 30)) ∧
    (∀ (s : AppParams) (ok : Bool), requestOf s (.pixelateDefault ok) = some (64, 15)) := by
  refine ⟨by decide, ?_, ?_, fun s ok => rfl⟩
  · intro evs hall
    exact foldl_stepApp_inv evs initParams (by decide) hall
  · intro s e g c hs _ hreq
    rw [paramsInv_iff] at hs
    cases e with
    | changeDensity v => simp [requestOf] at hreq
    | changeColors v => simp [requestOf] at hreq
    | releaseDensity ok =>
      simp only [requestOf, Option.some.injEq, Prod.mk.injEq] at hreq
      obtain ⟨rfl, rfl⟩ := hreq
      exact ⟨hs.2.1, hs.2.2.1⟩
    | releaseColors ok =>
      simp only [requestOf, Option.some.injEq, Prod.mk.injEq] at hreq
      obtain ⟨rfl, rfl⟩ := hreq
      exact ⟨hs.1, hs.2.2.2⟩
    | pixelateDefault ok =>
      simp only [requestOf, Option.some.injEq, Prod.mk.injEq] at hreq
      obtain ⟨rfl, rfl⟩ := hreq
      exact by decide

/-- Witness for C4 on a concrete event trace. -/
theorem c4_witness :
    (∀ e ∈ ([.changeDensity 24, .releaseDensity true, .changeColors 7,
        .releaseColors false] : List AppEvent), eventValid e = true) ∧
    paramsInv (([.changeDensity 24, .releaseDensity true, .changeColors 7,
        .releaseColors false] : List AppEvent).foldl stepApp initParams) = true :=
  ⟨by decide, c4_request_parameter_bounds.2.1 _ (by decide)⟩

/-- C5: the transformation `handlePixelate` applies to a `/pixelate` response
body is deterministic: two responses agreeing on `used_palette`, `grid_data`,
`width`, `height` and `preview` (regardless of any other fields) produce the
same `PixelResult`; in particular `rgbToHex` is a pure function of its three
channel inputs. -/
theorem c5_handle_pixelate_deterministic :
    (∀ d1 d2 : PixelateResponse,
      d1.used_palette = d2.used_palette → d1.grid_data = d2.grid_data →
      d1.width = d2.width → d1.height = d2.height → d1.preview = d2.preview →
      handlePixelateResult d1 = handlePixelateResult d2) ∧
    (∀ r g b r2 g2 b2 : Nat, r = r2 → g = g2 → b = b2 →
      rgbToHex r g b = rgbToHex r2 g2 b2) := by
  constructor
  · intro d1 d2 h1 h2 h3 h4 h5
    simp [handlePixelateResult, h1, h2, h3, h4, h5]
  · intro r g b r2 g2 b2 h1 h2 h3
    rw [h1, h2, h3]

def c5a : PixelateResponse :=
  { used_palette := [{ id := "H01", rgb := (1, 2, 3) }]
    grid_data := [["H01"]], width := 1, height := 1, preview := "p"
    extra := [("debug", "1")] }

def c5b : PixelateResponse :=
  { used_palette := [{ id := "H01", rgb := (1, 2, 3) }]
    grid_data := [["H01"]], width := 1, height := 1, preview := "p"
    extra := [] }

/-- Witness for C5: two responses that differ only in ignored fields yield
identical results. -/
theorem c5_witness :
    (c5a.used_palette = c5b.used_palette ∧ c5a.grid_data = c5b.grid_data ∧
      c5a.width = c5b.width ∧ c5a.height = c5b.height ∧
      c5a.preview = c5b.preview ∧ c5a.extra ≠ c5b.extra) ∧
    handlePixelateResult c5a = handlePixelateResult c5b := by
  refine ⟨⟨rfl, rfl, rfl, rfl, rfl, by decide⟩,
    c5_handle_pixelate_deterministic.1 c5a c5b rfl rfl rfl rfl rfl⟩

/-- C6 counterexample: with the initial `addPadding` state, which is `true`,
the canvas is two bead-widths larger than `width * scale` and
`height * scale`, so the claimed equalities fail at width 2, height 3,
scale 10. -/
theorem c6_counterexample :
    viewerInitAddPadding = true ∧
    canvasWidth 2 10 viewerInitAddPadding ≠ 2 * 10 ∧
    canvasHeight 3 10 viewerInitAddPadding ≠ 3 * 10 := by decide

/-- C6 (amended): the canvas dimensions are `width * scale` and
`height * scale` exactly when padding is off; with padding on (the initial
state) each dimension gains two extra bead-widths: `(width + 2) * scale` and
`(height + 2) * scale`. -/
theorem c6_canvas_dimensions (width height scale : Nat) :
    canvasWidth width scale false = width * scale ∧
    canvasHeight height scale false = height * scale ∧
    canvasWidth width scale true = (width + 2) * scale ∧
    canvasHeight height scale true = (height + 2) * scale := by
  refine ⟨?_, ?_, ?_, ?_⟩ <;> simp [canvasWidth, canvasHeight] <;> ring

/-- C7: if the `/pixelate` fetch rejects or returns a non-ok status,
`handlePixelate` stores the corresponding specific error message and leaves
`pixelResult`, `step`, `gridSize` and `maxColors` unchanged; a successful
response leaves the error cleared and replaces `pixelResult` wholesale. -/
theorem c7_error_path_atomicity :
    (∀ (s : AppResultState) (g c status : Nat) (statusText : String),
      (handlePixelateStep s g c (.httpError status statusText)).pixelResult = s.pixelResult ∧
      (handlePixelateStep s g c (.httpError status statusText)).step = s.step ∧
      (handlePixelateStep s g c (.httpError status statusText)).gridSize = s.gridSize ∧
      (handlePixelateStep s g c (.httpError status statusText)).maxColors = s.maxColors ∧
      (handlePixelateStep s g c (.httpError status statusText)).error =
        some (httpErrorMessage status statusText)) ∧
    (∀ (s : AppResultState) (g c : Nat) (k : RejectKind),
      (handlePixelateStep s g c (.reject k)).pixelResult = s.pixelResult ∧
      (handlePixelateStep s g c (.reject k)).step = s.step ∧
      (handlePixelateStep s g c (.reject k)).gridSize = s.gridSize ∧
      (handlePixelateStep s g c (.reject k)).maxColors = s.maxColors ∧
      (handlePixelateStep s g c (.reject k)).error = some (rejectMessage k)) ∧
    (∀ (s : AppResultState) (g c : Nat) (d : PixelateResponse),
      (handlePixelateStep s g c (.ok d)).error = none ∧
      (handlePixelateStep s g c (.ok d)).pixelResult = some (handlePixelateResult d)) := by
  exact ⟨fun s g c status statusText => ⟨rfl, rfl, rfl, rfl, rfl⟩,
    fun s g c k => ⟨rfl, rfl, rfl, rfl, rfl⟩,
    fun s g c d => ⟨rfl, rfl⟩⟩

/-- C8: toggling a color twice restores the visible set, toggling once flips
the membership of exactly that color, and the membership of every other color
is unchanged. -/
theorem c8_toggle_color_visibility (color : String) (visible : Finset String) :
    toggleColorVisibility color (toggleColorVisibility color visible) = visible ∧
    (color ∈ toggleColorVisibility color visible ↔ color ∉ visible) ∧
    (∀ other : String, other ≠ color →
      (other ∈ toggleColorVisibility color visible ↔ other ∈ visible)) := by
  by_cases h : color ∈ visible
  · refine ⟨?_, ?_, ?_⟩
    · have h1 : toggleColorVisibility color visible = visible.erase color := if_pos h
      have h2 : toggleColorVisibility color (visible.erase color) =
          insert color (visible.erase color) :=
        if_neg (Finset.not_mem_erase color visible)
      rw [h1, h2]
      exact Finset.insert_erase h
    · simp [toggleColorVisibility, h]
    · intro other hne
      simp [toggleColorVisibility, h, Finset.mem_erase, hne]
  · refine ⟨?_, ?_, ?_⟩
    · have h1 : toggleColorVisibility color visible = insert color visible := if_neg h
      have h2 : toggleColorVisibility color (insert color visible) =
          (insert color visible).erase color :=
        if_pos (Finset.mem_insert_self color visible)
      rw [h1, h2]
      exact Finset.erase_insert h
    · simp [toggleColorVisibility, h]
    · intro other hne
      simp [toggleColorVisibility, h, Finset.mem_insert, hne]

/-- Witness for C8 at concrete colors and a concrete set. -/
theorem c8_witness :
    ("#b" ≠ "#a") ∧
    ("#b" ∈ toggleColorVisibility "#a" ({"#b"} : Finset String) ↔
      "#b" ∈ ({"#b"} : Finset String)) :=
  ⟨by decide, (c8_toggle_color_visibility "#a" {"#b"}).2.2 "#b" (by decide)⟩

/-- C9: `toggleAllColors` empties the set exactly when the number of distinct
visible colors equals `usedPalette.length`, otherwise it makes all palette
colors visible; when `usedPalette` has duplicates the hide-all branch is
unreachable for any set of visible palette colors, in particular when every
palette color is visible. -/
theorem c9_toggle_all_colors (visible : Finset String) (palette : List String) :
    (visible.card = palette.length → toggleAllColors visible palette = ∅) ∧
    (visible.card ≠ palette.length → toggleAllColors visible palette = palette.toFinset) ∧
    (¬ palette.Nodup → visible ⊆ palette.toFinset →
      toggleAllColors visible palette = palette.toFinset) := by
  refine ⟨fun h => by simp [toggleAllColors, h],
    fun h => by simp [toggleAllColors, h], ?_⟩
  intro hdup hsub
  have hcard : visible.card ≤ palette.toFinset.card := Finset.card_le_card hsub
  have h1 : palette.toFinset.card = palette.dedup.length := List.card_toFinset palette
  have h2 : palette.dedup.length < palette.length := by
    rcases Nat.lt_or_ge palette.dedup.length palette.length with h | h
    · exact h
    · exfalso
      have hle := palette.dedup_sublist.length_le
      have heq := palette.dedup_sublist.eq_of_length (le_antisymm hle h)
      exact hdup (List.dedup_eq_self.1 heq)
  have hne : visible.card ≠ palette.length := by omega
  simp [toggleAllColors, hne]

/-- Witness for C9: with a duplicated palette and all palette colors visible,
the hide-all branch is not taken. -/
theorem c9_witness :
    ¬ (["#a", "#a"] : List String).Nodup ∧
    toggleAllColors ({"#a"} : Finset String) ["#a", "#a"] =
      (["#a", "#a"] : List String).toFinset :=
  ⟨by decide, (c9_toggle_all_colors {"#a"} ["#a", "#a"]).2.2 (by decide) (by decide)⟩

/-- C10: a drop invokes `onImageSelect` exactly when it carries at least one
file whose first file has a MIME type starting with `image/` (files past the
first are ignored); a file chosen through the input invokes `onImageSelect`
for any first file regardless of MIME type, and the input value is reset. -/
theorem c10_uploader_filtering :
    (∀ (files : List JsFile) (f : JsFile),
      handleDrop files = some f ↔
        (files.head? = some f ∧ jsStartsWith f.type "image/" = true)) ∧
    (∀ (f : JsFile) (rest rest2 : List JsFile),
      handleDrop (f :: rest) = handleDrop (f :: rest2)) ∧
    (∀ (files : List JsFile) (f : JsFile),
      (handleFileSelect files).1 = some f ↔ files.head? = some f) ∧
    (∀ files : List JsFile, (handleFileSelect files).2 = "") := by
  refine ⟨?_, fun f rest rest2 => rfl, ?_, ?_⟩
  · intro files f
    cases files with
    | nil => simp [handleDrop]
    | cons f0 rest =>
      by_cases h : jsStartsWith f0.type "image/"
      · simp only [handleDrop, h, if_true, List.head?, Option.some.injEq]
        constructor
        · rintro rfl; exact ⟨rfl, h⟩
        · rintro ⟨rfl, -⟩; rfl
      · rw [Bool.not_eq_true] at h
        simp only [handleDrop, h, Bool.false_eq_true, if_false, List.head?, Option.some.injEq]
        constructor
        · intro hc
          simp at hc
        · rintro ⟨rfl, hh⟩
          simp [h] at hh
  · intro files f
    cases files <;> simp [handleFileSelect]
  · intro files
    cases files <;> rfl

end Img2Pindou
